import Mathlib

/-!
# seqd: a shallow embedding of `src/seqd.h`

`seqd.h` is a header-only C library that stages ANSI escape sequences in a heap
buffer (`buffer`, `display`), reads lines and single keys (`get_input`,
`keypress`), switches the terminal between cooked and raw mode (`set_raw_mode`,
`unset_raw_mode`) and asks the terminal for its size (`get_terminal_size`).

Conventions of the embedding

* A byte (`char`) is a `Nat`.  A `char*` argument is the list of bytes found at
  the pointer; the C string it denotes ends at the first NUL byte, or at the
  end of the list when the list holds no NUL (`cstr`).
* A heap block is the list of its bytes; its length is the allocated size.
  `NULL` is `none`.
* The globals of the library and the relevant part of the environment
  (allocator, standard streams, terminal driver) are the fields of `State`.
* C behaviour that has no value (a write past the end of a heap block, a loop
  that never ends, `exit`) is an `Except.error` carrying a `Fault`.
* The two builds selected by `#ifdef _WIN32` are selected by a `Bool` argument
  named `win32` of the three platform specific functions.
-/

namespace Seqd

/-! ## Configuration constants (lines 82-100 of `seqd.h`) -/

/-- The macro `SEQD_MAX_BUFFER_SIZE`, 1024 unless the application defines it. -/
def SEQD_MAX_BUFFER_SIZE : Nat := 1024

/-- The macro `SEQD_STATIC_BUFFER_SIZE`, 32 by default. -/
def SEQD_STATIC_BUFFER_SIZE : Nat := 32

/-- The macro `SEQD_STATIC_BUFFER_COUNT`, 8 by default. -/
def SEQD_STATIC_BUFFER_COUNT : Nat := 8

/-- The number of values of an `unsigned int` (the type of `seqdbuf_size`). -/
def UINT_RANGE : Nat := 2 ^ 32

/-- Ways in which a call leaves defined C behaviour or never returns. -/
inductive Fault where
  /-- a write of `needed` bytes into a heap block of `allocated` bytes -/
  | heap_overflow (needed allocated : Nat)
  /-- a string function ran over a block that holds no NUL byte -/
  | unterminated
  /-- a write through a `NULL` pointer -/
  | null_deref
  /-- a loop that never ends -/
  | hang
  /-- the process ended through `exit(EXIT_FAILURE)` -/
  | exit_failure
  /-- an `int` expression left the range of `int` -/
  | signed_overflow
  deriving DecidableEq, Repr

/-- The fields of `struct termios` (POSIX build). -/
structure Termios where
  c_iflag : Nat
  c_oflag : Nat
  c_cflag : Nat
  c_lflag : Nat
  c_cc : List Nat
  deriving DecidableEq, Repr

/-- The globals of `seqd.h` together with the part of the process environment
the library acts on. -/
structure State where
  /-- the global `char* seqdbuf`: the output buffer, `none` for `NULL` -/
  seqdbuf : Option (List Nat)
  /-- the global `unsigned int seqdbuf_size` -/
  seqdbuf_size : Nat
  /-- the global `char* seqdibuf`: the input line buffer -/
  seqdibuf : Option (List Nat)
  /-- the global `bool seqdraw` -/
  seqdraw : Bool
  /-- the global `struct termios seqdterm` (POSIX build): the saved snapshot -/
  seqdterm : Termios
  /-- the global `DWORD seqdmode` (Windows build): the saved snapshot -/
  seqdmode : Nat
  /-- the global `static char bufs[..][..]` of `ansi_argd_seq` -/
  bufs : List (List Nat)
  /-- the global `static int index` of `ansi_argd_seq` -/
  index : Nat
  /-- the allocator: the answers it will give to the coming `malloc` and
  `realloc` calls, `none` for a failed call, `some junk` for a successful one
  whose uninitialised bytes hold `junk`.  An exhausted list is an exhausted
  heap. -/
  heap : List (Option (List Nat))
  /-- the bytes that standard input will deliver, in order -/
  stdin : List Nat
  /-- milliseconds until the first byte of `stdin` can be read -/
  stdin_wait : Nat
  /-- the end-of-file indicator of the `stdin` stream -/
  stdin_eof : Bool
  /-- bytes written to `stdout` and not yet flushed -/
  stdout_pending : List Nat
  /-- bytes delivered to the terminal -/
  stdout : List Nat
  /-- messages written by `perror` -/
  stderr : List String
  /-- the attributes the terminal driver has in force (POSIX build) -/
  tty : Termios
  /-- the console input mode in force (Windows build) -/
  conmode : Nat
  deriving DecidableEq, Repr

/-! ## C library functions used by `seqd.h` -/

/-- The C string found at a pointer: the bytes before the first NUL. -/
def cstr (mem : List Nat) : List Nat := mem.takeWhile (fun c => c != 0)

/-- The C function `strnlen(s, maxlen)`. -/
def strnlen (s : List Nat) (maxlen : Nat) : Nat := (cstr (s.take maxlen)).length

/-- An allocation of `n` bytes that may keep the bytes of an old block: the
next answer of the allocator decides whether it succeeds. -/
def alloc (old : List Nat) (n : Nat) (s : State) : Option (List Nat) × State :=
  match s.heap with
  | [] => (none, s)
  | none :: h => (none, { s with heap := h })
  | some junk :: h =>
    (some ((old ++ junk ++ List.replicate n 0).take n), { s with heap := h })

/-- The C function `malloc(n)`. -/
def malloc (n : Nat) (s : State) : Option (List Nat) × State := alloc [] n s

/-- The C function `realloc(p, n)` for a block `p`. -/
def realloc (p : List Nat) (n : Nat) (s : State) : Option (List Nat) × State := alloc p n s

/-- The C function `strncat(dest, src, n)` on the heap block `dest`: at most `n` bytes of the
string `src` are written over the terminator of `dest`, followed by a NUL. -/
def strncat (dest src : List Nat) (n : Nat) : Except Fault (List Nat) :=
  if dest.contains 0 then
    let i := (cstr dest).length
    let app := (cstr src).take n ++ [0]
    if i + app.length ≤ dest.length then
      .ok (dest.take i ++ app ++ dest.drop (i + app.length))
    else .error (.heap_overflow (i + app.length) dest.length)
  else .error .unterminated

/-- The C function `fputs(s, stdout)`. -/
def fputs (s : List Nat) (st : State) : State :=
  { st with stdout_pending := st.stdout_pending ++ cstr s }

/-- The C function `fflush(stdout)`. -/
def fflush (st : State) : State :=
  { st with stdout := st.stdout ++ st.stdout_pending, stdout_pending := [] }

/-! ## Utility functions (lines 225-247) -/

/-- The C function `ctos(c)`: the returned block, `none` for `NULL`. -/
def ctos (c : Nat) (s : State) : Option (List Nat) × State :=
  match malloc 2 s with
  | (none, s1) => (none, s1)
  | (some b, s1) => (some ((b.set 0 c).set 1 0), s1)

/-- The C function `deinit()`. -/
def deinit (s : State) : State :=
  { s with seqdbuf_size := 0, seqdbuf := none, seqdibuf := none }

/-! ## The output buffer (lines 272-323) -/

/-- The C function `display()`. -/
def display (s : State) : State :=
  match s.seqdbuf with
  | none => s
  | some b => fflush (fputs b s)

/-- Lines 294-308 of `buffer`: the part after the lazy allocation, run on the
block `b` that `seqdbuf` points to. -/
def buffer_grow (sequence b : List Nat) (s : State) :
    Except Fault (Option (List Nat) × State) :=
  -- int sequence_size = strnlen(sequence, SEQD_MAX_BUFFER_SIZE);
  let sequence_size := strnlen sequence SEQD_MAX_BUFFER_SIZE
  -- seqdbuf = realloc(seqdbuf, seqdbuf_size + sequence_size);
  match realloc b ((s.seqdbuf_size + sequence_size) % UINT_RANGE) s with
  | (none, s1) => .ok (none, { s1 with seqdbuf := none, seqdbuf_size := 0 })
  | (some b1, s1) =>
    -- seqdbuf_size += sequence_size;
    let size := (s.seqdbuf_size + sequence_size) % UINT_RANGE
    -- strncat(seqdbuf, sequence, seqdbuf_size);
    match strncat b1 sequence size with
    | .error f => .error f
    | .ok b2 => .ok (some b2, { s1 with seqdbuf := some b2, seqdbuf_size := size })

/-- The C function `buffer(sequence)`; the result is the returned pointer (the block it points
to, `none` for `NULL`) and the new state. -/
def buffer (sequence : List Nat) (s : State) : Except Fault (Option (List Nat) × State) :=
  match s.seqdbuf with
  | none =>
    -- seqdbuf = (char*) malloc(1);
    match malloc 1 s with
    | (none, s1) => .ok (none, { s1 with seqdbuf := none, seqdbuf_size := 0 })
    | (some b, s1) =>
      -- seqdbuf_size = 1; seqdbuf[0] = 0;
      buffer_grow sequence (b.set 0 0) { s1 with seqdbuf := some (b.set 0 0), seqdbuf_size := 1 }
  | some b => buffer_grow sequence b s

/-- The C function `null_terminated_buffers(first, ...)`: `rest` holds the arguments between
`first` and the closing `NULL`. -/
def null_terminated_buffers : List Nat → List (List Nat) → State → Except Fault State
  | sequence, rest, s =>
    -- do { buffer(sequence); sequence = va_arg(args, const char*); } while (sequence != NULL);
    match buffer sequence s with
    | .error f => .error f
    | .ok (_, s1) =>
      match rest with
      | [] => .ok s1
      | next :: more => null_terminated_buffers next more s1

/-- The C function `immediate(sequence)`. -/
def immediate (sequence : List Nat) (s : State) : State := fflush (fputs sequence s)

/-- The C function `null_terminated_immediates(first, ...)`. -/
def null_terminated_immediates : List Nat → List (List Nat) → State → State
  | sequence, rest, s =>
    match rest with
    | [] => immediate sequence s
    | next :: more => null_terminated_immediates next more (immediate sequence s)

/-! ## Rendering sequences that take arguments (lines 249-264) -/

/-- Decimal digits of `n`, most significant first, put in front of `acc`. -/
def decimal_aux : Nat → Nat → List Nat → List Nat
  | 0, _, acc => acc
  | fuel + 1, n, acc =>
    if n < 10 then (48 + n) :: acc else decimal_aux fuel (n / 10) ((48 + n % 10) :: acc)

/-- The decimal numeral of a natural number, as bytes. -/
def decimal (n : Nat) : List Nat := decimal_aux (n + 1) n []

/-- What the conversion `%d` prints for an `int`. -/
def print_d (i : Int) : List Nat :=
  if i < 0 then 45 :: decimal i.natAbs else decimal i.natAbs

/-- The text a `printf` style call produces for a format that uses no
conversion but `%d` (the library uses no other). -/
def format : List Nat → List Int → List Nat
  | [], _ => []
  | 37 :: 100 :: fmt, a :: args => print_d a ++ format fmt args
  | c :: fmt, args => c :: format fmt args

/-- The C function `vsnprintf(buf, size, fmt, args)` on the block `buf`. -/
def vsnprintf (buf : List Nat) (size : Nat) (fmt : List Nat) (args : List Int) : List Nat :=
  if size = 0 then buf
  else
    let text := (format (cstr fmt) args).take (size - 1) ++ [0]
    text ++ buf.drop text.length

/-- The C function `ansi_argd_seq(fmt, ...)`; the returned pointer is the number of the slot
of `bufs` it points to. -/
def ansi_argd_seq (fmt : List Nat) (args : List Int) (s : State) : Nat × State :=
  -- char* buf = bufs[index]; index = (index + 1) % SEQD_STATIC_BUFFER_COUNT;
  let i := s.index
  let buf := s.bufs.getD i []
  -- vsnprintf(buf, 32, fmt, args);
  (i, { s with index := (i + 1) % SEQD_STATIC_BUFFER_COUNT,
               bufs := s.bufs.set i (vsnprintf buf 32 fmt args) })

/-- The C function `SEQD_SETCUR(row, col)`; the format is `"\033[%d;%dH"`. -/
def SEQD_SETCUR (row col : Int) (s : State) : Nat × State :=
  ansi_argd_seq [27, 91, 37, 100, 59, 37, 100, 72] [row, col] s

/-- The C function `SEQD_FG_256(col)`: the format is `"\033[38;5;%dm"`. -/
def SEQD_FG_256 (col : Int) (s : State) : Nat × State :=
  ansi_argd_seq [27, 91, 51, 56, 59, 53, 59, 37, 100, 109] [col] s

/-- The macro `SEQD_CURPOS`, the string `"\033[6n"`. -/
def SEQD_CURPOS : List Nat := [27, 91, 54, 110]

/-! ## Line input (lines 354-369) -/

/-- The C function `read(STDIN_FILENO, buf, count)`: the returned length and
the bytes stored.  The call waits for the first byte; at the end of input it
returns 0. -/
def read (count : Nat) (s : State) : Int × List Nat × State :=
  let bytes := s.stdin.take count
  (bytes.length, bytes, { s with stdin := s.stdin.drop count, stdin_wait := 0 })

/-- The C predicate `isspace` in the C locale. -/
def isspace (c : Nat) : Bool := c = 32 || (decide (9 ≤ c) && decide (c ≤ 13))

/-- The C predicate `isdigit`. -/
def isdigit (c : Nat) : Bool := decide (48 ≤ c) && decide (c ≤ 57)

/-- The value of a run of decimal digits. -/
def digits_value (ds : List Nat) : Nat := ds.foldl (fun a d => 10 * a + (d - 48)) 0

/-- The sign and digits part of a `%d` conversion of `sscanf` (the white space
before it already skipped): the value and the input left, `none` when no digit
follows the optional sign.  The value is not reduced to the range of `int`;
`get_terminal_size` scans at most ten bytes. -/
def scan_int (s : List Nat) : Option (Int × List Nat) :=
  let neg : Bool := s.head? == some 45
  let s1 := if s.head? == some 45 || s.head? == some 43 then s.drop 1 else s
  let ds := s1.takeWhile isdigit
  if ds = [] then none
  else some (if neg then - (digits_value ds : Int) else (digits_value ds : Int),
             s1.dropWhile isdigit)

/-- The call `sscanf(buf, "\033[%d;%dR", &row, &col)`: the returned count
(`-1` is `EOF`: the input ended before the first conversion), and the values
stored in `row` and `col` (`none` when nothing was stored). -/
def sscanf_cursor (buf : List Nat) : Int × Option Int × Option Int :=
  match cstr buf with
  | [] => (-1, none, none)
  | c0 :: r0 =>
    if c0 ≠ 27 then (0, none, none)
    else match r0 with
    | [] => (-1, none, none)
    | c1 :: r1 =>
      if c1 ≠ 91 then (0, none, none)
      else
        -- %d
        let r1s := r1.dropWhile isspace
        if r1s = [] then (-1, none, none)
        else match scan_int r1s with
        | none => (0, none, none)
        | some (row, r2) =>
          -- ;
          match r2 with
          | [] => (1, some row, none)
          | c2 :: r3 =>
            if c2 ≠ 59 then (1, some row, none)
            else
              -- %d ; the R after it cannot change the count any more
              match scan_int (r3.dropWhile isspace) with
              | none => (1, some row, none)
              | some (col, _) => (2, some row, some col)

/-- The C function `get_terminal_size(&width, &height)`: the arguments are the
values of `*width` and `*height` before the call, the result holds their
values after it. -/
def get_terminal_size (width height : Int) (s : State) : Int × Int × State :=
  if !s.seqdraw then (width, height, s)
  else
    -- immediate(SEQD_SETCUR(999,999)); immediate(SEQD_CURPOS);
    let p := SEQD_SETCUR 999 999 s
    let s1 := immediate (p.2.bufs.getD p.1 []) p.2
    let s2 := immediate SEQD_CURPOS s1
    -- char buf[11]; ssize_t len = read(STDIN_FILENO, buf, sizeof(buf) - 1);
    let r := read 10 s2
    if r.1 > 0 then
      -- buf[len] = 0;
      match sscanf_cursor (r.2.1 ++ [0]) with
      | (2, some row, some col) => (col, row, r.2.2)
      | _ => (width, height, r.2.2)
    else (width, height, r.2.2)

/-! ## Raw mode (lines 421-488) -/

/-- The flag `ICANON` of `c_lflag` (value of the Linux headers). -/
def ICANON : Nat := 2
/-- The flag `ECHO` of `c_lflag` (value of the Linux headers). -/
def ECHO : Nat := 8
/-- The index `VMIN` of `c_cc` (value of the Linux headers). -/
def VMIN : Nat := 6
/-- The index `VTIME` of `c_cc` (value of the Linux headers). -/
def VTIME : Nat := 5
/-- The console flag `ENABLE_LINE_INPUT` of the Windows headers. -/
def ENABLE_LINE_INPUT : Nat := 2
/-- The console flag `ENABLE_ECHO_INPUT` of the Windows headers. -/
def ENABLE_ECHO_INPUT : Nat := 4

/-- The expression `flags & ~mask` on 32 bit unsigned flag words. -/
def clear_bits (flags mask : Nat) : Nat := flags &&& (UINT_RANGE - 1 - mask)

/-- The C function `perror(msg)`. -/
def perror (msg : String) (s : State) : State := { s with stderr := s.stderr ++ [msg] }

/-- The C function `set_raw_mode()`.  `get_ok` and `set_ok` tell whether the
call that reads the terminal configuration (`tcgetattr`, `GetConsoleMode`) and
the call that writes it (`tcsetattr`, `SetConsoleMode`) succeed.  A successful
write is taken to put the attributes it was given in force; `tcsetattr` also
reports success when the driver has kept some attributes of its own, which the
model leaves out. -/
def set_raw_mode (win32 get_ok set_ok : Bool) (s : State) : Except Fault State :=
  if win32 then
    -- if (!GetConsoleMode(hstdin, &seqdmode)) { perror(..); exit(EXIT_FAILURE); }
    if !get_ok then .error .exit_failure
    else
      let s1 := { s with seqdmode := s.conmode }
      -- DWORD new_mode = seqdmode & ~(ENABLE_LINE_INPUT | ENABLE_ECHO_INPUT);
      let new_mode := clear_bits s1.seqdmode (ENABLE_LINE_INPUT ||| ENABLE_ECHO_INPUT)
      if !set_ok then .error .exit_failure
      else .ok { s1 with conmode := new_mode, seqdraw := true }
  else
    let s0 := fflush s
    -- if (tcgetattr(STDIN_FILENO, &seqdterm) < 0) perror("tcgetattr");
    let s1 := if get_ok then { s0 with seqdterm := s0.tty } else perror "tcgetattr" s0
    -- struct termios term = seqdterm;
    let term := s1.seqdterm
    let term1 := { term with
      c_lflag := clear_bits term.c_lflag (ICANON ||| ECHO),
      c_cc := (term.c_cc.set VMIN 1).set VTIME 0 }
    -- if (tcsetattr(STDIN_FILENO, TCSANOW, &term) < 0) perror("tcsetattr");
    let s2 := if set_ok then { s1 with tty := term1 } else perror "tcsetattr" s1
    .ok { s2 with seqdraw := true }

/-- The C function `unset_raw_mode()`.  `set_ok` tells whether the call that
writes the terminal configuration succeeds.  As in `set_raw_mode`, a successful
write is taken to put the attributes it was given in force; that is what a
driver does with attributes it has reported itself, and need not be what it
does with a snapshot that was never read from the terminal. -/
def unset_raw_mode (win32 set_ok : Bool) (s : State) : Except Fault State :=
  if win32 then
    -- if (!SetConsoleMode(hstdin, seqdmode)) { perror(..); exit(EXIT_FAILURE); }
    if !set_ok then .error .exit_failure
    else .ok { s with conmode := s.seqdmode, seqdraw := false }
  else
    -- if (tcsetattr(STDIN_FILENO, TCSANOW, &seqdterm) < 0) perror("tcsetattr");
    let s1 := if set_ok then { s with tty := s.seqdterm } else perror "tcsetattr" s
    .ok { s1 with seqdraw := false }

/-! ## Single keys (lines 494-530) -/

/-- The call `poll(&fds, 1, timeout)` on standard input: positive when a byte
can be read within `timeout` milliseconds (a negative `timeout` waits without
limit) or the input has ended, 0 when the time runs out first. -/
def poll (timeout : Int) (s : State) : Int × State :=
  if s.stdin = [] then (1, s)
  else if timeout < 0 ∨ (s.stdin_wait : Int) ≤ timeout then (1, { s with stdin_wait := 0 })
  else (0, { s with stdin_wait := s.stdin_wait - timeout.toNat })

/-- The C function `keypress()`; `timeout` is `SEQD_KEYBOARD_TIMEOUT`. -/
def keypress (win32 : Bool) (timeout : Int) (s : State) : Nat × State :=
  if win32 then
    -- if (_kbhit()) return _getch(); return 0;
    match s.stdin with
    | [] => (0, s)
    | c :: rest => if s.stdin_wait = 0 then (c, { s with stdin := rest }) else (0, s)
  else
    -- if (!seqdraw) return 0;
    if !s.seqdraw then (0, s)
    -- if (feof(stdin) != 0) { clearerr(stdin); return 0; }
    else if s.stdin_eof then (0, { s with stdin_eof := false })
    else
      -- if (poll(&fds, 1, SEQD_KEYBOARD_TIMEOUT)) { n = read(STDIN_FILENO, &c, 1); ... }
      let p := poll timeout s
      if p.1 ≠ 0 then
        let r := read 1 p.2
        if r.1 = 1 then (r.2.1.headD 0, r.2.2) else (0, r.2.2)
      else (0, p.2)

/-- The state of a process that has not called the library yet: the globals
hold their initial values; the environment is given. -/
def State.start (heap : List (Option (List Nat))) (stdin : List Nat) (tty : Termios)
    (conmode : Nat) : State :=
  { seqdbuf := none, seqdbuf_size := 0, seqdibuf := none, seqdraw := false,
    seqdterm := { c_iflag := 0, c_oflag := 0, c_cflag := 0, c_lflag := 0,
                  c_cc := List.replicate 32 0 },
    seqdmode := 0,
    bufs := List.replicate SEQD_STATIC_BUFFER_COUNT (List.replicate SEQD_STATIC_BUFFER_SIZE 0),
    index := 0, heap := heap, stdin := stdin, stdin_wait := 0, stdin_eof := false,
    stdout_pending := [], stdout := [], stderr := [], tty := tty, conmode := conmode }

/-! ## Definitions that follow the words of the specification -/

/-- An integer as a reply may spell it: optional white space, an optional
sign, then at least one decimal digit. -/
def is_int_text (t : List Nat) : Prop :=
  ∃ ws sg ds, t = ws ++ sg ++ ds ∧ (∀ c ∈ ws, isspace c = true) ∧
    (sg = [] ∨ sg = [45] ∨ sg = [43]) ∧ ds ≠ [] ∧ ∀ c ∈ ds, isdigit c = true

/-- A reply that begins with `ESC [ row ; col`, two integers; what follows the
second integer is free. -/
def begins_with_position (reply : List Nat) : Prop :=
  ∃ t1 t2 rest, reply = [27, 91] ++ t1 ++ [59] ++ t2 ++ rest ∧ is_int_text t1 ∧ is_int_text t2

/-- A sequence of render calls, one after another: each item is the format and
the arguments of one call of `ansi_argd_seq`. -/
def render_calls : List (List Nat × List Int) → State → State
  | [], s => s
  | c :: cs, s => render_calls cs (ansi_argd_seq c.1 c.2 s).2

/-- The output buffer holds the string `c`: it is unallocated and `c` is empty,
or `seqdbuf` points to a block of exactly `seqdbuf_size` bytes that holds `c`
and its terminating NUL. -/
def holds (s : State) (c : List Nat) : Prop :=
  (s.seqdbuf = none ∧ c = []) ∨
  (s.seqdbuf = some (c ++ [0]) ∧ s.seqdbuf_size = c.length + 1 ∧ ∀ x ∈ c, x ≠ 0)

/-! ## Strings and allocation -/

/-- A list without NUL byte is its own C string. -/
theorem cstr_nulfree (A : List Nat) (hA : ∀ c ∈ A, c ≠ 0) : cstr A = A := by
  unfold cstr
  rw [List.takeWhile_eq_self_iff]
  intro c hc
  simpa using hA c hc

/-- The C string of a NUL free text followed by a NUL is that text. -/
theorem cstr_append_nul (A X : List Nat) (hA : ∀ c ∈ A, c ≠ 0) : cstr (A ++ 0 :: X) = A := by
  unfold cstr
  induction A with
  | nil => simp
  | cons a A ih =>
    have ha : a ≠ 0 := hA a (by simp)
    simp [List.takeWhile_cons, ha]
    exact ih (fun c hc => hA c (by simp [hc]))

/-- The C string of a NUL free text followed by more bytes. -/
theorem cstr_append_nulfree (R Z : List Nat) (hR : ∀ c ∈ R, c ≠ 0) :
    cstr (R ++ Z) = R ++ cstr Z := by
  unfold cstr
  exact List.takeWhile_append_of_pos (fun a ha => by simpa using hR a ha)

/-- A NUL appended to a block does not change its C string. -/
theorem cstr_append_zero (X : List Nat) : cstr (X ++ [0]) = cstr X := by
  unfold cstr
  induction X with
  | nil => simp
  | cons a X ih =>
    by_cases ha : a = 0
    · simp [ha]
    · simp [List.takeWhile_cons, ha, ih]

/-- The length `strnlen` reports for a NUL free text within the limit. -/
theorem strnlen_nulfree (A : List Nat) (n : Nat) (hA : ∀ c ∈ A, c ≠ 0) (hn : A.length ≤ n) :
    strnlen A n = A.length := by
  unfold strnlen
  rw [List.take_of_length_le hn, cstr_nulfree A hA]

/-- Two NUL free texts concatenate to a NUL free text. -/
theorem nulfree_append (A B : List Nat) (hA : ∀ c ∈ A, c ≠ 0) (hB : ∀ c ∈ B, c ≠ 0) :
    ∀ c ∈ A ++ B, c ≠ 0 := by
  intro c hc
  rcases List.mem_append.mp hc with hc | hc
  · exact hA c hc
  · exact hB c hc

/-- A successful allocation returns a block of the requested size. -/
theorem alloc_length (old : List Nat) (n : Nat) (s : State) (b : List Nat) (s1 : State)
    (h : alloc old n s = (some b, s1)) : b.length = n := by
  unfold alloc at h
  rcases hs : s.heap with _ | ⟨a, hp⟩
  · simp [hs] at h
  · cases a with
    | none => simp [hs] at h
    | some j =>
      simp [hs] at h
      rw [← h.1]
      simp
      omega

/-! ## The output buffer: `buffer` and `display` (C1, C2, C3) -/

/-- Lines 294-308 on a buffer that holds the string `c` in a block of exactly
`c.length + 1` bytes, for a NUL free fragment within the limit: the block
becomes `c ++ f ++ [0]`. -/
theorem buffer_grow_ok (c f j : List Nat) (h : List (Option (List Nat))) (s : State)
    (hc : ∀ x ∈ c, x ≠ 0) (hf : ∀ x ∈ f, x ≠ 0) (hfl : f.length ≤ SEQD_MAX_BUFFER_SIZE)
    (hsz : s.seqdbuf_size = c.length + 1) (hfit : c.length + 1 + f.length < UINT_RANGE)
    (hheap : s.heap = some j :: h) :
    buffer_grow f (c ++ [0]) s =
      .ok (some (c ++ f ++ [0]),
           { s with heap := h, seqdbuf := some (c ++ f ++ [0]),
                    seqdbuf_size := c.length + 1 + f.length }) := by
  have hmod : (c.length + 1 + strnlen f SEQD_MAX_BUFFER_SIZE) % UINT_RANGE = c.length + 1 + f.length := by
    rw [strnlen_nulfree f _ hf hfl, Nat.mod_eq_of_lt hfit]
  have hblock : ((c ++ [0]) ++ j ++ List.replicate (c.length + 1 + f.length) 0).take (c.length + 1 + f.length)
      = c ++ 0 :: ((j ++ List.replicate (c.length + 1 + f.length) 0).take f.length) := by
    have : c.length + 1 + f.length = (c ++ [0]).length + f.length := by simp
    rw [List.append_assoc, this, List.take_append]
    simp
  unfold buffer_grow realloc alloc
  simp only [hheap, hsz, hmod, hblock]
  unfold strncat
  have hcont : (c ++ 0 :: List.take f.length (j ++ List.replicate (c.length + 1 + f.length) 0)).contains 0 = true := by
    simp
  simp only [hcont, if_true, cstr_append_nul c _ hc, cstr_nulfree f hf]
  have htake : f.take (c.length + 1 + f.length) = f := List.take_of_length_le (by omega)
  rw [htake]
  have hlen : c.length + (f ++ [0]).length ≤ (c ++ 0 :: List.take f.length (j ++ List.replicate (c.length + 1 + f.length) 0)).length := by
    simp
    omega
  simp only [hlen, if_true]
  have hd : (c ++ 0 :: List.take f.length (j ++ List.replicate (c.length + 1 + f.length) 0)).drop (c.length + (f ++ [0]).length) = [] := by
    apply List.drop_eq_nil_of_le
    simp
  rw [hd]
  simp

/-- The first `buffer` call, on the unallocated buffer, with both allocations
succeeding. -/
theorem buffer_first_ok (f j1 j2 : List Nat) (h : List (Option (List Nat))) (s : State)
    (hbuf : s.seqdbuf = none) (hf : ∀ x ∈ f, x ≠ 0) (hfl : f.length ≤ SEQD_MAX_BUFFER_SIZE)
    (hheap : s.heap = some j1 :: some j2 :: h) :
    buffer f s =
      .ok (some (f ++ [0]),
           { s with heap := h, seqdbuf := some (f ++ [0]), seqdbuf_size := 1 + f.length }) := by
  have hb : ((([] : List Nat) ++ j1 ++ List.replicate 1 0).take 1).set 0 0 = [] ++ [0] := by
    cases j1 <;> simp
  unfold buffer malloc alloc
  simp only [hbuf, hheap, hb]
  have hfit : ([] : List Nat).length + 1 + f.length < UINT_RANGE := by
    simp [UINT_RANGE, SEQD_MAX_BUFFER_SIZE] at *
    omega
  rw [buffer_grow_ok [] f j2 h _ (by simp) hf hfl (by simp) hfit rfl]
  simp

/-- A later `buffer` call, on a buffer that holds the string `c`. -/
theorem buffer_next_ok (c f j : List Nat) (h : List (Option (List Nat))) (s : State)
    (hbuf : s.seqdbuf = some (c ++ [0]))
    (hc : ∀ x ∈ c, x ≠ 0) (hf : ∀ x ∈ f, x ≠ 0) (hfl : f.length ≤ SEQD_MAX_BUFFER_SIZE)
    (hsz : s.seqdbuf_size = c.length + 1) (hfit : c.length + 1 + f.length < UINT_RANGE)
    (hheap : s.heap = some j :: h) :
    buffer f s =
      .ok (some (c ++ f ++ [0]),
           { s with heap := h, seqdbuf := some (c ++ f ++ [0]),
                    seqdbuf_size := c.length + 1 + f.length }) := by
  unfold buffer
  simp only [hbuf]
  exact buffer_grow_ok c f j h s hc hf hfl hsz hfit hheap

/-- C1: starting from the unallocated output buffer, with the three allocations
succeeding, for all NUL-free texts `A` and `B` of at most
`SEQD_MAX_BUFFER_SIZE` bytes, `buffer(A)` then `buffer(B)` both return, the
buffer then holds the block `A ++ B ++ [0]`, that is the string `A ++ B`, and
`display()` delivers to the terminal what was still pending followed by
exactly `A ++ B`. -/
theorem buffer_then_buffer_concat (A B j1 j2 j3 : List Nat) (h : List (Option (List Nat)))
    (s : State) (hbuf : s.seqdbuf = none)
    (hheap : s.heap = some j1 :: some j2 :: some j3 :: h)
    (hA : ∀ c ∈ A, c ≠ 0) (hB : ∀ c ∈ B, c ≠ 0)
    (hAl : A.length ≤ SEQD_MAX_BUFFER_SIZE) (hBl : B.length ≤ SEQD_MAX_BUFFER_SIZE) :
    ∃ p1 s1 p2 s2, buffer A s = .ok (p1, s1) ∧ buffer B s1 = .ok (p2, s2) ∧
      s2.seqdbuf = some (A ++ B ++ [0]) ∧ cstr (A ++ B ++ [0]) = A ++ B ∧
      (display s2).stdout = s.stdout ++ s.stdout_pending ++ (A ++ B) ∧
      (display s2).stdout_pending = [] := by
  have h1 := buffer_first_ok A j1 j2 (some j3 :: h) s hbuf hA hAl hheap
  have hfit : A.length + 1 + B.length < UINT_RANGE := by
    simp [UINT_RANGE, SEQD_MAX_BUFFER_SIZE] at *
    omega
  have h2 := buffer_next_ok A B j3 h
    { s with heap := some j3 :: h, seqdbuf := some (A ++ [0]), seqdbuf_size := 1 + A.length }
    rfl hA hB hBl (by simp; omega) hfit rfl
  have hAB : ∀ c ∈ A ++ B, c ≠ 0 := by
    intro c hc
    rcases List.mem_append.mp hc with hc | hc
    · exact hA c hc
    · exact hB c hc
  have hcs : cstr (A ++ B ++ [0]) = A ++ B := cstr_append_nul (A ++ B) [] hAB
  refine ⟨_, _, _, _, h1, h2, rfl, hcs, ?_, ?_⟩
  · simp only [display, fflush, fputs]
    rw [hcs]
    simp
  · simp only [display, fflush, fputs]

/-- The fragments `hi` and `!` staged from the start state. -/
theorem buffer_then_buffer_concat_witness :
    ∃ p1 s1 p2 s2,
      buffer [104, 105] (State.start [some [], some [], some []] [] ⟨0, 0, 0, 0, []⟩ 0) = .ok (p1, s1) ∧
      buffer [33] s1 = .ok (p2, s2) ∧
      s2.seqdbuf = some ([104, 105] ++ [33] ++ [0]) ∧ cstr ([104, 105] ++ [33] ++ [0]) = [104, 105] ++ [33] ∧
      (display s2).stdout = (State.start [some [], some [], some []] [] ⟨0, 0, 0, 0, []⟩ 0).stdout
        ++ (State.start [some [], some [], some []] [] ⟨0, 0, 0, 0, []⟩ 0).stdout_pending ++ ([104, 105] ++ [33]) ∧
      (display s2).stdout_pending = [] :=
  buffer_then_buffer_concat [104, 105] [33] [] [] [] []
    (State.start [some [], some [], some []] [] ⟨0, 0, 0, 0, []⟩ 0) rfl rfl
    (by decide) (by decide) (by decide) (by decide)

/-- Lines 294-308 for a fragment longer than `SEQD_MAX_BUFFER_SIZE`: the block
is grown by `SEQD_MAX_BUFFER_SIZE` bytes but `strncat` may copy `seqdbuf_size`
bytes, so it writes past the end of the block. -/
theorem buffer_grow_overflow (c f j : List Nat) (h : List (Option (List Nat))) (s : State)
    (hc : ∀ x ∈ c, x ≠ 0) (hf : ∀ x ∈ f, x ≠ 0) (hfl : SEQD_MAX_BUFFER_SIZE < f.length)
    (hsz : s.seqdbuf_size = c.length + 1)
    (hfit : c.length + 1 + SEQD_MAX_BUFFER_SIZE < UINT_RANGE)
    (hheap : s.heap = some j :: h) :
    buffer_grow f (c ++ [0]) s =
      .error (.heap_overflow
        (c.length + (min (c.length + 1 + SEQD_MAX_BUFFER_SIZE) f.length + 1))
        (c.length + 1 + SEQD_MAX_BUFFER_SIZE)) := by
  have hsl : strnlen f SEQD_MAX_BUFFER_SIZE = SEQD_MAX_BUFFER_SIZE := by
    unfold strnlen
    rw [cstr_nulfree _ (fun x hx => hf x (List.mem_of_mem_take hx))]
    simp
    omega
  have hmod : (c.length + 1 + strnlen f SEQD_MAX_BUFFER_SIZE) % UINT_RANGE
      = c.length + 1 + SEQD_MAX_BUFFER_SIZE := by
    rw [hsl, Nat.mod_eq_of_lt hfit]
  have hblock : ((c ++ [0]) ++ j ++ List.replicate (c.length + 1 + SEQD_MAX_BUFFER_SIZE) 0).take
        (c.length + 1 + SEQD_MAX_BUFFER_SIZE)
      = c ++ 0 :: ((j ++ List.replicate (c.length + 1 + SEQD_MAX_BUFFER_SIZE) 0).take
          SEQD_MAX_BUFFER_SIZE) := by
    have : c.length + 1 + SEQD_MAX_BUFFER_SIZE = (c ++ [0]).length + SEQD_MAX_BUFFER_SIZE := by simp
    rw [List.append_assoc, this, List.take_append]
    simp
  unfold buffer_grow realloc alloc
  simp only [hheap, hsz, hmod, hblock]
  unfold strncat
  have hcont : (c ++ 0 :: List.take SEQD_MAX_BUFFER_SIZE
      (j ++ List.replicate (c.length + 1 + SEQD_MAX_BUFFER_SIZE) 0)).contains 0 = true := by
    simp
  simp only [hcont, if_true, cstr_append_nul c _ hc, cstr_nulfree f hf]
  have hlen : (c ++ 0 :: List.take SEQD_MAX_BUFFER_SIZE
      (j ++ List.replicate (c.length + 1 + SEQD_MAX_BUFFER_SIZE) 0)).length
        = c.length + 1 + SEQD_MAX_BUFFER_SIZE := by
    simp
    omega
  have happ : (List.take (c.length + 1 + SEQD_MAX_BUFFER_SIZE) f ++ [0]).length
      = min (c.length + 1 + SEQD_MAX_BUFFER_SIZE) f.length + 1 := by
    simp
  rw [hlen, happ]
  have : ¬ (c.length + (min (c.length + 1 + SEQD_MAX_BUFFER_SIZE) f.length + 1)
      ≤ c.length + 1 + SEQD_MAX_BUFFER_SIZE) := by
    omega
  simp only [this, if_false]

/-- The first `buffer` call with a fragment longer than `SEQD_MAX_BUFFER_SIZE`
writes `SEQD_MAX_BUFFER_SIZE + 2` bytes into a block of
`SEQD_MAX_BUFFER_SIZE + 1`. -/
theorem buffer_first_overflow (f j1 j2 : List Nat) (h : List (Option (List Nat))) (s : State)
    (hbuf : s.seqdbuf = none) (hf : ∀ x ∈ f, x ≠ 0) (hfl : SEQD_MAX_BUFFER_SIZE < f.length)
    (hheap : s.heap = some j1 :: some j2 :: h) :
    buffer f s = .error (.heap_overflow (SEQD_MAX_BUFFER_SIZE + 2) (SEQD_MAX_BUFFER_SIZE + 1)) := by
  have hb : ((([] : List Nat) ++ j1 ++ List.replicate 1 0).take 1).set 0 0 = [] ++ [0] := by
    cases j1 <;> simp
  unfold buffer malloc alloc
  simp only [hbuf, hheap, hb]
  have hfit : ([] : List Nat).length + 1 + SEQD_MAX_BUFFER_SIZE < UINT_RANGE := by
    simp [UINT_RANGE, SEQD_MAX_BUFFER_SIZE]
  rw [buffer_grow_overflow [] f j2 h _ (by simp) hf hfl (by simp) hfit rfl]
  have : min (([] : List Nat).length + 1 + SEQD_MAX_BUFFER_SIZE) f.length = SEQD_MAX_BUFFER_SIZE + 1 := by
    simp
    omega
  rw [this]
  simp
  omega

/-- C2: evaluation of `buffer` at a fragment of 1025 bytes, one more than
`SEQD_MAX_BUFFER_SIZE`, from the unallocated buffer with both allocations
succeeding: the block is grown to 1 + 1024 = 1025 bytes, and `strncat`, called
with `n = seqdbuf_size` = 1025, writes 1025 bytes of the fragment and a NUL,
1026 bytes, into it.  The fragment is not cut to its first 1024 bytes. -/
theorem buffer_1025_bytes_overflows :
    buffer (List.replicate 1025 97)
        (State.start [some [], some []] [] ⟨0, 0, 0, 0, []⟩ 0)
      = .error (.heap_overflow 1026 1025) :=
  buffer_first_overflow (List.replicate 1025 97) [] [] [] _ rfl
    (by intro x hx; rw [List.eq_of_mem_replicate hx]; decide)
    (by rw [List.length_replicate]; unfold SEQD_MAX_BUFFER_SIZE; omega) rfl

/-- C3: for every state and every fragment, if an allocation fails during
`buffer(fragment)` (the next answer of the allocator is a failure, or the
buffer is unallocated and the answer after the successful `malloc` is a
failure), `buffer` returns `NULL` and leaves `seqdbuf = NULL` and
`seqdbuf_size = 0`. -/
theorem buffer_alloc_failure_resets (sequence : List Nat) (s : State)
    (hfail : s.heap.getD 0 none = none ∨ (s.seqdbuf = none ∧ s.heap.getD 1 none = none)) :
    ∃ s1, buffer sequence s = .ok (none, s1) ∧ s1.seqdbuf = none ∧ s1.seqdbuf_size = 0 := by
  unfold buffer buffer_grow malloc realloc alloc
  rcases hs : s.heap with _ | ⟨a, h⟩
  · cases hb : s.seqdbuf <;> simp [hs, hb]
  · cases a with
    | none => cases hb : s.seqdbuf <;> simp [hs, hb]
    | some j =>
      rw [hs] at hfail
      simp at hfail
      obtain ⟨hb, h1⟩ := hfail
      rcases h with _ | ⟨a2, h2⟩
      · simp [hs, hb]
      · cases a2 with
        | none => simp [hs, hb]
        | some j2 => simp at h1

/-- The fragment `hi` staged when the `malloc` succeeds and the `realloc` fails. -/
theorem buffer_alloc_failure_resets_witness :
    ∃ s1, buffer [104, 105] (State.start [some [], none] [] ⟨0, 0, 0, 0, []⟩ 0) = .ok (none, s1)
      ∧ s1.seqdbuf = none ∧ s1.seqdbuf_size = 0 :=
  buffer_alloc_failure_resets [104, 105] (State.start [some [], none] [] ⟨0, 0, 0, 0, []⟩ 0)
    (Or.inr ⟨rfl, rfl⟩)

/-! ## Raw mode round trip (C4) -/

/-- C4: on either build, for every state (so for every terminal configuration),
when the calls that read and write the configuration succeed,
`set_raw_mode()` returns with `seqdraw = true`, and `unset_raw_mode()` right
after it returns with the terminal configuration (`tty`, all flags and control
characters, on POSIX; `conmode` on Windows) equal to the one before
`set_raw_mode()` and with `seqdraw = false`. -/
theorem raw_mode_round_trip (win32 : Bool) (s : State) :
    ∃ s1 s2, set_raw_mode win32 true true s = .ok s1 ∧ s1.seqdraw = true ∧
      unset_raw_mode win32 true s1 = .ok s2 ∧
      s2.tty = s.tty ∧ s2.conmode = s.conmode ∧ s2.seqdraw = false := by
  cases win32 <;> simp [set_raw_mode, unset_raw_mode, fflush]

/-! ## Keys outside raw mode (C5) -/

/-- C5 fails on the Windows build: with `seqdraw = false` and the key `A`
pending, `keypress()` returns the key and takes it out of the input. -/
theorem keypress_win32_reads_when_not_raw :
    (State.start [] [65] ⟨0, 0, 0, 0, []⟩ 0).seqdraw = false ∧
    (keypress true 100 (State.start [] [65] ⟨0, 0, 0, 0, []⟩ 0)).1 = 65 ∧
    (keypress true 100 (State.start [] [65] ⟨0, 0, 0, 0, []⟩ 0)).2.stdin = [] := by
  decide

/-- C5, amended: on the POSIX build, for every state with `seqdraw = false`
and every value of `SEQD_KEYBOARD_TIMEOUT`, `keypress()` returns 0 and leaves
the whole state, the input included, as it was. -/
theorem keypress_posix_not_raw (timeout : Int) (s : State) (h : s.seqdraw = false) :
    keypress false timeout s = (0, s) := by
  simp [keypress, h]

/-- The POSIX `keypress()` in the start state with the key `A` pending. -/
theorem keypress_posix_not_raw_witness :
    keypress false 100 (State.start [] [65] ⟨0, 0, 0, 0, []⟩ 0)
      = (0, State.start [] [65] ⟨0, 0, 0, 0, []⟩ 0) :=
  keypress_posix_not_raw 100 (State.start [] [65] ⟨0, 0, 0, 0, []⟩ 0) rfl

/-! ## Line input (C6) -/

/-- The decimal numeral of a number below 1000, digit by digit. -/
theorem decimal_lt_1000 (n : Nat) (hn : n < 1000) :
    decimal n =
      if n < 10 then [48 + n]
      else if n < 100 then [48 + n / 10, 48 + n % 10]
      else [48 + n / 100, 48 + n / 10 % 10, 48 + n % 10] := by
  unfold decimal
  by_cases h1 : n < 10
  · simp [decimal_aux, h1]
  · by_cases h2 : n < 100
    · obtain ⟨k, rfl⟩ : ∃ k, n = k + 1 := ⟨n - 1, by omega⟩
      have h3 : (k + 1) / 10 < 10 := by omega
      simp [decimal_aux, h1, h2, h3]
    · obtain ⟨k, rfl⟩ : ∃ k, n = k + 2 := ⟨n - 2, by omega⟩
      have h3 : ¬ (k + 2) / 10 < 10 := by omega
      have h4 : (k + 2) / 100 < 10 := by omega
      have h5 : (k + 2) / 10 / 10 = (k + 2) / 100 := by omega
      simp [decimal_aux, h1, h2, h3, h4, h5]

/-- The numeral of a number below 1000 is one to three digits whose value is
the number. -/
theorem decimal_digits (n : Nat) (hn : n < 1000) :
    decimal n ≠ [] ∧ (∀ c ∈ decimal n, isdigit c = true) ∧ (decimal n).length ≤ 3 ∧
      digits_value (decimal n) = n := by
  rw [decimal_lt_1000 n hn]
  by_cases h1 : n < 10
  · simp [h1, isdigit, digits_value]
    omega
  · by_cases h2 : n < 100
    · simp [h1, h2, isdigit, digits_value]
      omega
    · simp [h1, h2, isdigit, digits_value]
      omega

/-- A digit is no NUL byte. -/
theorem isdigit_ne_zero (c : Nat) (h : isdigit c = true) : c ≠ 0 := by
  intro h0
  rw [h0] at h
  simp [isdigit] at h

/-- The conversion `%d` on a run of digits that ends at a byte that is no digit. -/
theorem scan_int_digits (D X : List Nat) (c : Nat) (hD : D ≠ [])
    (hdig : ∀ x ∈ D, isdigit x = true) (hc : isdigit c = false) :
    scan_int (D ++ c :: X) = some ((digits_value D : Int), c :: X) := by
  obtain ⟨d, D1, rfl⟩ := List.exists_cons_of_ne_nil hD
  have hd : isdigit d = true := hdig d (by simp)
  have hd45 : d ≠ 45 := by
    intro h
    rw [h] at hd
    simp [isdigit] at hd
  have hd43 : d ≠ 43 := by
    intro h
    rw [h] at hd
    simp [isdigit] at hd
  have htake : (d :: D1 ++ c :: X).takeWhile isdigit = d :: D1 := by
    rw [List.takeWhile_append_of_pos hdig]
    simp [List.takeWhile_cons, hc]
  have hdrop : (d :: D1 ++ c :: X).dropWhile isdigit = c :: X := by
    rw [List.dropWhile_append_of_pos hdig]
    simp [List.dropWhile_cons, hc]
  unfold scan_int
  have hh : (d :: D1 ++ c :: X).head? = some d := rfl
  simp only [hh]
  have h45 : (some d == some 45) = false := by simpa using hd45
  have h43 : (some d == some 43) = false := by simpa using hd43
  simp only [h45, h43, Bool.or_self, Bool.false_eq_true, if_false, htake, hdrop]
  simp

/-- No white space is skipped in front of a digit. -/
theorem dropWhile_isspace_digits (D X : List Nat) (hD : D ≠ [])
    (hdig : ∀ x ∈ D, isdigit x = true) :
    (D ++ X).dropWhile isspace = D ++ X := by
  obtain ⟨d, D1, rfl⟩ := List.exists_cons_of_ne_nil hD
  have hd : isdigit d = true := hdig d (by simp)
  have : isspace d = false := by
    simp [isdigit] at hd
    simp [isspace]
    omega
  simp [List.dropWhile_cons, this]

/-- The `sscanf` call on a string `ESC [ digits ; digits R ..` converts both
integers. -/
theorem sscanf_cursor_reply (buf D1 D2 Y : List Nat) (hD1 : D1 ≠ []) (hD2 : D2 ≠ [])
    (h1 : ∀ x ∈ D1, isdigit x = true) (h2 : ∀ x ∈ D2, isdigit x = true)
    (hbuf : cstr buf = 27 :: 91 :: (D1 ++ 59 :: (D2 ++ 82 :: Y))) :
    sscanf_cursor buf = (2, some (digits_value D1 : Int), some (digits_value D2 : Int)) := by
  unfold sscanf_cursor
  rw [hbuf]
  have hne : D1 ++ 59 :: (D2 ++ 82 :: Y) ≠ [] := by simp
  simp only [ne_eq, not_true_eq_false, if_false, dropWhile_isspace_digits D1 _ hD1 h1, hne,
    scan_int_digits D1 _ 59 hD1 h1 (by decide), dropWhile_isspace_digits D2 _ hD2 h2,
    scan_int_digits D2 _ 82 hD2 h2 (by decide)]

/-- In raw mode the values `get_terminal_size` leaves in `*width` and `*height`
depend on the first 10 bytes of the input only. -/
theorem get_terminal_size_values (width height : Int) (s : State) (hraw : s.seqdraw = true) :
    (get_terminal_size width height s).1 =
      (if 0 < (s.stdin.take 10).length then
        match sscanf_cursor (s.stdin.take 10 ++ [0]) with
        | (2, some _, some col) => col
        | _ => width
       else width) ∧
    (get_terminal_size width height s).2.1 =
      (if 0 < (s.stdin.take 10).length then
        match sscanf_cursor (s.stdin.take 10 ++ [0]) with
        | (2, some row, some _) => row
        | _ => height
       else height) := by
  unfold get_terminal_size
  simp only [hraw, Bool.not_true, Bool.false_eq_true, if_false]
  simp only [read, SEQD_SETCUR, ansi_argd_seq, immediate, fflush, fputs]
  by_cases hlen : 0 < (s.stdin.take 10).length
  · have hlen2 : ((s.stdin.take 10).length : Int) > 0 := by exact_mod_cast hlen
    simp only [hlen, hlen2, if_true]
    constructor <;> split <;> simp_all
  · have hlen2 : ¬ ((s.stdin.take 10).length : Int) > 0 := by
      intro h
      exact hlen (by exact_mod_cast h)
    simp only [hlen, hlen2, if_false]
    simp

/-- C7: in raw mode, for every `row` and `col` in 1..999, when standard input
delivers the reply `ESC [ row ; col R` in decimal (whatever follows it),
`get_terminal_size` stores `col` in `*width` and `row` in `*height`. -/
theorem get_terminal_size_parses_reply (row col : Nat) (width height : Int) (s : State)
    (rest : List Nat) (hraw : s.seqdraw = true)
    (hrow : 1 ≤ row ∧ row ≤ 999) (hcol : 1 ≤ col ∧ col ≤ 999)
    (hin : s.stdin = [27, 91] ++ decimal row ++ [59] ++ decimal col ++ [82] ++ rest) :
    (get_terminal_size width height s).1 = col ∧
    (get_terminal_size width height s).2.1 = row := by
  obtain ⟨hr1, hr2, hr3, hr4⟩ := decimal_digits row (by omega)
  obtain ⟨hc1, hc2, hc3, hc4⟩ := decimal_digits col (by omega)
  set R := [27, 91] ++ decimal row ++ [59] ++ decimal col ++ [82] with hR
  have hRlen : R.length ≤ 10 := by
    simp [hR]
    omega
  have hRnul : ∀ c ∈ R, c ≠ 0 := by
    intro c hc
    simp [hR] at hc
    rcases hc with h | h | h | h | h | h
    · omega
    · omega
    · exact isdigit_ne_zero c (hr2 c h)
    · omega
    · exact isdigit_ne_zero c (hc2 c h)
    · omega
  have htake : s.stdin.take 10 = R ++ rest.take (10 - R.length) := by
    rw [hin, List.take_append_eq_append_take, List.take_of_length_le hRlen]
  have hcs : cstr (s.stdin.take 10 ++ [0])
      = 27 :: 91 :: (decimal row ++ 59 :: (decimal col ++ 82 :: cstr (rest.take (10 - R.length) ++ [0]))) := by
    rw [htake, List.append_assoc, cstr_append_nulfree R _ hRnul]
    simp [hR]
  have hscan := sscanf_cursor_reply (s.stdin.take 10 ++ [0]) (decimal row) (decimal col) _
    hr1 hc1 hr2 hc2 hcs
  have hpos : 0 < (s.stdin.take 10).length := by
    rw [htake]
    simp [hR]
  obtain ⟨hw, hh⟩ := get_terminal_size_values width height s hraw
  rw [hw, hh, hscan, hr4, hc4]
  simp only [hpos, if_true]
  exact ⟨trivial, trivial⟩

/-- The reply `ESC [ 24 ; 80 R` gives width 80 and height 24. -/
theorem get_terminal_size_parses_reply_witness :
    (get_terminal_size 0 0
      { State.start [] [27, 91, 50, 52, 59, 56, 48, 82] ⟨0, 0, 0, 0, []⟩ 0 with seqdraw := true }).1
        = 80 ∧
    (get_terminal_size 0 0
      { State.start [] [27, 91, 50, 52, 59, 56, 48, 82] ⟨0, 0, 0, 0, []⟩ 0 with seqdraw := true }).2.1
        = 24 :=
  get_terminal_size_parses_reply 24 80 0 0
    { State.start [] [27, 91, 50, 52, 59, 56, 48, 82] ⟨0, 0, 0, 0, []⟩ 0 with seqdraw := true }
    [] rfl (by decide) (by decide) (by decide)

/-! ## Terminal size: other replies (C8) -/

/-- What a successful `%d` conversion has consumed: an optional sign and at
least one digit. -/
theorem scan_int_some (s rest : List Nat) (v : Int) (h : scan_int s = some (v, rest)) :
    ∃ sg ds, s = sg ++ ds ++ rest ∧ (sg = [] ∨ sg = [45] ∨ sg = [43]) ∧ ds ≠ [] ∧
      ∀ c ∈ ds, isdigit c = true := by
  unfold scan_int at h
  set s1 := if (s.head? == some 45 || s.head? == some 43) = true then s.drop 1 else s with hs1
  have hsplit : ∃ sg, s = sg ++ s1 ∧ (sg = [] ∨ sg = [45] ∨ sg = [43]) := by
    cases s with
    | nil => exact ⟨[], by simp [hs1], Or.inl rfl⟩
    | cons a t =>
      by_cases h45 : a = 45
      · exact ⟨[45], by simp [hs1, h45], Or.inr (Or.inl rfl)⟩
      · by_cases h43 : a = 43
        · exact ⟨[43], by simp [hs1, h43], Or.inr (Or.inr rfl)⟩
        · exact ⟨[], by simp [hs1, h45, h43], Or.inl rfl⟩
  obtain ⟨sg, hsg, hsgc⟩ := hsplit
  by_cases hds : s1.takeWhile isdigit = []
  · simp [hds] at h
  · simp only [hds, if_false, Option.some.injEq, Prod.mk.injEq] at h
    refine ⟨sg, s1.takeWhile isdigit, ?_, hsgc, hds, ?_⟩
    · rw [← h.2, List.append_assoc, List.takeWhile_append_dropWhile]
      exact hsg
    · intro c hc
      exact (List.mem_takeWhile_imp hc)

/-- What a successful `%d` conversion has consumed, the white space included. -/
theorem scan_int_spaces (t rest : List Nat) (v : Int)
    (h : scan_int (t.dropWhile isspace) = some (v, rest)) :
    ∃ t1, t = t1 ++ rest ∧ is_int_text t1 := by
  obtain ⟨sg, ds, heq, hsg, hds, hdig⟩ := scan_int_some _ _ _ h
  refine ⟨t.takeWhile isspace ++ sg ++ ds, ?_, t.takeWhile isspace, sg, ds, rfl, ?_, hsg, hds, hdig⟩
  · have := List.takeWhile_append_dropWhile isspace t
    rw [heq] at this
    simpa [List.append_assoc] using this.symm
  · intro c hc
    exact List.mem_takeWhile_imp hc

/-- When the `sscanf` call returns 2 the string begins with `ESC [ row ; col`. -/
theorem sscanf_cursor_two (buf : List Nat) (r c : Option Int)
    (h : sscanf_cursor buf = (2, r, c)) : begins_with_position (cstr buf) := by
  unfold sscanf_cursor at h
  split at h
  · simp at h
  · rename_i c0 r0 hcs
    split at h
    · simp at h
    · rename_i hc0
      simp only [ne_eq, Decidable.not_not] at hc0
      split at h
      · simp at h
      · rename_i c1 r1
        split at h
        · simp at h
        · rename_i hc1
          simp only [ne_eq, Decidable.not_not] at hc1
          dsimp only at h
          split at h
          · simp at h
          · split at h
            · simp at h
            · rename_i row r2 hrow
              split at h
              · simp at h
              · rename_i c2 r3
                split at h
                · simp at h
                · rename_i hc2
                  simp only [ne_eq, Decidable.not_not] at hc2
                  split at h
                  · simp at h
                  · rename_i col r4 hcol
                    obtain ⟨t1, ht1, hi1⟩ := scan_int_spaces _ _ _ hrow
                    obtain ⟨t2, ht2, hi2⟩ := scan_int_spaces _ _ _ hcol
                    refine ⟨t1, t2, r4, ?_, hi1, hi2⟩
                    rw [hcs, hc0, hc1, ht1, hc2, ht2]
                    simp

/-- A reply that begins with a position still does when bytes follow it. -/
theorem begins_with_position_append (P Q : List Nat) (h : begins_with_position P) :
    begins_with_position (P ++ Q) := by
  obtain ⟨t1, t2, rest, heq, h1, h2⟩ := h
  exact ⟨t1, t2, rest ++ Q, by rw [heq]; simp, h1, h2⟩

/-- The function `get_terminal_size` writes no error message. -/
theorem get_terminal_size_stderr (width height : Int) (s : State) :
    (get_terminal_size width height s).2.2.stderr = s.stderr := by
  unfold get_terminal_size
  split
  · rfl
  · dsimp only
    split
    · split <;> rfl
    · rfl

/-- C8 fails: the reply `ESC [ 24 ; 80 Q` has no terminating `R`, yet in raw
mode `get_terminal_size`, called with `*width = 1` and `*height = 2`, stores
80 and 24: `sscanf` has converted both integers before it meets the `Q`. -/
theorem get_terminal_size_accepts_wrong_terminator :
    (get_terminal_size 1 2
      { State.start [] [27, 91, 50, 52, 59, 56, 48, 81] ⟨0, 0, 0, 0, []⟩ 0 with seqdraw := true }).1
        = 80 ∧
    (get_terminal_size 1 2
      { State.start [] [27, 91, 50, 52, 59, 56, 48, 81] ⟨0, 0, 0, 0, []⟩ 0 with seqdraw := true }).2.1
        = 24 := by
  decide

/-- C8, amended: in raw mode, for every reply (the at most 10 bytes read) that
does not begin with `ESC [ row ; col`, two integers, each possibly preceded by
white space and a sign, `get_terminal_size` leaves `*width` and `*height` as
they were and writes no error message.  What follows the second integer, the
terminating `R` included, is not part of the condition. -/
theorem get_terminal_size_unparsed (width height : Int) (s : State) (hraw : s.seqdraw = true)
    (hform : ¬ begins_with_position (s.stdin.take 10)) :
    (get_terminal_size width height s).1 = width ∧
    (get_terminal_size width height s).2.1 = height ∧
    (get_terminal_size width height s).2.2.stderr = s.stderr := by
  have hnot : ∀ r c, sscanf_cursor (s.stdin.take 10 ++ [0]) ≠ (2, r, c) := by
    intro r c hsc
    apply hform
    have h1 := sscanf_cursor_two _ r c hsc
    rw [cstr_append_zero] at h1
    have h2 := begins_with_position_append _
      ((s.stdin.take 10).dropWhile (fun c => c != 0)) h1
    unfold cstr at h2
    rwa [List.takeWhile_append_dropWhile] at h2
  obtain ⟨hw, hh⟩ := get_terminal_size_values width height s hraw
  refine ⟨?_, ?_, get_terminal_size_stderr width height s⟩
  · rw [hw]
    split
    · split
      · rename_i hsc
        exact absurd hsc (hnot _ _)
      · rfl
    · rfl
  · rw [hh]
    split
    · split
      · rename_i hsc
        exact absurd hsc (hnot _ _)
      · rfl
    · rfl

/-- The reply `ESC [ x ; y Q` does not begin with a position. -/
theorem not_begins_with_position_letters :
    ¬ begins_with_position [27, 91, 120, 59, 121, 81] := by
  rintro ⟨t1, t2, rest, heq, ⟨ws, sg, ds, rfl, hws, hsg, hds, hdig⟩, _⟩
  simp only [List.append_assoc, List.cons_append, List.nil_append, List.cons.injEq,
    true_and] at heq
  cases ws with
  | cons w ws1 =>
    simp only [List.cons_append, List.cons.injEq] at heq
    have := hws w (by simp)
    rw [← heq.1] at this
    simp [isspace] at this
  | nil =>
    rcases hsg with rfl | rfl | rfl
    · cases ds with
      | nil => exact hds rfl
      | cons d ds1 =>
        simp only [List.nil_append, List.cons_append, List.cons.injEq] at heq
        have := hdig d (by simp)
        rw [← heq.1] at this
        simp [isdigit] at this
    · simp at heq
    · simp at heq

/-- The reply `ESC [ x ; y Q` leaves width 1 and height 2 as they were. -/
theorem get_terminal_size_unparsed_witness :
    (get_terminal_size 1 2
      { State.start [] [27, 91, 120, 59, 121, 81] ⟨0, 0, 0, 0, []⟩ 0 with seqdraw := true }).1 = 1 ∧
    (get_terminal_size 1 2
      { State.start [] [27, 91, 120, 59, 121, 81] ⟨0, 0, 0, 0, []⟩ 0 with seqdraw := true }).2.1 = 2 ∧
    (get_terminal_size 1 2
      { State.start [] [27, 91, 120, 59, 121, 81] ⟨0, 0, 0, 0, []⟩ 0 with seqdraw := true }).2.2.stderr
        = [] :=
  get_terminal_size_unparsed 1 2
    { State.start [] [27, 91, 120, 59, 121, 81] ⟨0, 0, 0, 0, []⟩ 0 with seqdraw := true }
    rfl not_begins_with_position_letters

/-! ## Staging a list of fragments (C9) -/

/-- Staging the fragments `f, fs..` on a buffer that holds the string `c`, with
every allocation succeeding, leaves the string `c` followed by the fragments
in order. -/
theorem stage_from_block (fs : List (List Nat)) :
    ∀ (f c : List Nat) (js : List (List Nat)) (h : List (Option (List Nat))) (s : State),
      s.seqdbuf = some (c ++ [0]) → s.seqdbuf_size = c.length + 1 → (∀ x ∈ c, x ≠ 0) →
      (∀ g ∈ f :: fs, (∀ x ∈ g, x ≠ 0) ∧ g.length ≤ SEQD_MAX_BUFFER_SIZE) →
      c.length + 1 + (f :: fs).flatten.length < UINT_RANGE →
      js.length = fs.length + 1 → s.heap = js.map some ++ h →
      ∃ s1, null_terminated_buffers f fs s = .ok s1 ∧
        s1.seqdbuf = some (c ++ (f :: fs).flatten ++ [0]) ∧ s1.heap = h := by
  induction fs with
  | nil =>
    intro f c js h s hbuf hsz hc hfr hfit hjs hheap
    obtain ⟨j, rfl⟩ : ∃ j, js = [j] := by
      match js, hjs with
      | [j], _ => exact ⟨j, rfl⟩
    have hf := hfr f (by simp)
    have hb := buffer_next_ok c f j h s hbuf hc hf.1 hf.2 hsz (by simpa using hfit)
      (by simpa using hheap)
    rw [null_terminated_buffers, hb]
    exact ⟨_, rfl, by simp, rfl⟩
  | cons g gs ih =>
    intro f c js h s hbuf hsz hc hfr hfit hjs hheap
    obtain ⟨j, js1, rfl⟩ : ∃ j js1, js = j :: js1 := by
      cases js with
      | nil => simp at hjs
      | cons j js1 => exact ⟨j, js1, rfl⟩
    have hf := hfr f (by simp)
    have hlen : (f :: g :: gs).flatten.length = f.length + (g :: gs).flatten.length := by
      simp
    have hb := buffer_next_ok c f j (js1.map some ++ h) s hbuf hc hf.1 hf.2 hsz
      (by rw [hlen] at hfit; omega) (by simpa using hheap)
    rw [null_terminated_buffers, hb]
    obtain ⟨s1, h1, h2, h3⟩ := ih g (c ++ f) js1 h
      { s with heap := js1.map some ++ h, seqdbuf := some (c ++ f ++ [0]),
               seqdbuf_size := c.length + 1 + f.length }
      rfl (by simp; omega) (nulfree_append c f hc hf.1)
      (fun x hx => hfr x (by simp at hx ⊢; tauto))
      (by rw [hlen] at hfit; simp at hfit ⊢; omega) (by simpa using hjs) rfl
    exact ⟨s1, h1, by rw [h2]; simp, h3⟩

/-- Staging the fragments `f, fs..` on the unallocated buffer, with every
allocation succeeding, leaves the fragments concatenated in order. -/
theorem stage_from_null (f : List Nat) (fs : List (List Nat)) (j0 : List Nat)
    (js : List (List Nat)) (h : List (Option (List Nat))) (s : State)
    (hbuf : s.seqdbuf = none)
    (hfr : ∀ g ∈ f :: fs, (∀ x ∈ g, x ≠ 0) ∧ g.length ≤ SEQD_MAX_BUFFER_SIZE)
    (hfit : 1 + (f :: fs).flatten.length < UINT_RANGE)
    (hjs : js.length = fs.length + 1) (hheap : s.heap = some j0 :: js.map some ++ h) :
    ∃ s1, null_terminated_buffers f fs s = .ok s1 ∧
      s1.seqdbuf = some ((f :: fs).flatten ++ [0]) ∧ s1.heap = h := by
  obtain ⟨j, js1, rfl⟩ : ∃ j js1, js = j :: js1 := by
    cases js with
    | nil => simp at hjs
    | cons j js1 => exact ⟨j, js1, rfl⟩
  have hf := hfr f (by simp)
  have hb := buffer_first_ok f j0 j (js1.map some ++ h) s hbuf hf.1 hf.2 (by simpa using hheap)
  cases fs with
  | nil =>
    have : js1 = [] := by
      cases js1 with
      | nil => rfl
      | cons a b => simp at hjs
    subst this
    rw [null_terminated_buffers, hb]
    exact ⟨_, rfl, by simp, by simp⟩
  | cons g gs =>
    rw [null_terminated_buffers, hb]
    obtain ⟨s1, h1, h2, h3⟩ := stage_from_block gs g f js1 h
      { s with heap := js1.map some ++ h, seqdbuf := some (f ++ [0]),
               seqdbuf_size := 1 + f.length }
      rfl (by simp; omega) hf.1
      (fun x hx => hfr x (by simp at hx ⊢; tauto))
      (by simp at hfit ⊢; omega) (by simpa using hjs) rfl
    exact ⟨s1, h1, by rw [h2]; simp, h3⟩

/-- The loop of `null_terminated_buffers` goes on with the later arguments from
the state the earlier ones have left. -/
theorem null_terminated_buffers_append (pre : List (List Nat)) :
    ∀ (f g : List Nat) (post : List (List Nat)) (s s0 : State),
      null_terminated_buffers f pre s = .ok s0 →
      null_terminated_buffers f (pre ++ g :: post) s = null_terminated_buffers g post s0 := by
  induction pre with
  | nil =>
    intro f g post s s0 h0
    rw [null_terminated_buffers] at h0
    rw [List.nil_append, null_terminated_buffers]
    cases hb : buffer f s with
    | error e => simp [hb] at h0
    | ok r =>
      simp only [hb] at h0 ⊢
      injection h0 with h0
      rw [h0]
  | cons p ps ih =>
    intro f g post s s0 h0
    rw [null_terminated_buffers] at h0
    rw [List.cons_append, null_terminated_buffers]
    cases hb : buffer f s with
    | error e => simp [hb] at h0
    | ok r =>
      simp only [hb] at h0 ⊢
      exact ih p g post r.2 s0 h0

/-- C9 fails: from the unallocated buffer, with the first `malloc` failing and
the next two allocations succeeding, `buffer("a")` returns `NULL`, yet
`null_terminated_buffers("a", "b", NULL)` goes on to stage `"b"`: the buffer
ends holding `"b"`, not empty. -/
theorem null_terminated_buffers_stages_after_failure :
    (buffer [97] (State.start [none, some [], some []] [] ⟨0, 0, 0, 0, []⟩ 0)).toOption.map
        (fun r => r.1) = some none ∧
    (null_terminated_buffers [97] [[98]]
        (State.start [none, some [], some []] [] ⟨0, 0, 0, 0, []⟩ 0)).toOption.map
        (fun s => s.seqdbuf) = some (some [98, 0]) := by
  decide

/-- C9, amended: `null_terminated_buffers` stages the fragments in order and
does not stop at a failure.  For fragments without NUL of at most
`SEQD_MAX_BUFFER_SIZE` bytes: (1) from a buffer that holds a string `c`
(unallocated, or a block of exactly `seqdbuf_size` bytes with `c` and its
NUL), with every allocation succeeding and the size of the result below 2^32,
the buffer ends holding `c` followed by the fragments concatenated in order;
(2) when staging `first, pre..` has returned with the buffer reset by the
failure of its last call (`seqdbuf = NULL`), the later fragments `g, post..`
are still staged, and with their allocations succeeding and the size of the
result below 2^32 the buffer ends holding the concatenation of these later
fragments.  The function has no return value. -/
theorem null_terminated_buffers_stages_all (first g c : List Nat)
    (pre post rest : List (List Nat))
    (s s0 : State) (j0 : List Nat) (js ks : List (List Nat))
    (h hk : List (Option (List Nat))) :
    (holds s c →
      (∀ f ∈ first :: rest, (∀ x ∈ f, x ≠ 0) ∧ f.length ≤ SEQD_MAX_BUFFER_SIZE) →
      c.length + 1 + (first :: rest).flatten.length < UINT_RANGE →
      ks.length = rest.length + 2 → s.heap = ks.map some ++ hk →
      ∃ s1, null_terminated_buffers first rest s = .ok s1 ∧
        s1.seqdbuf = some (c ++ (first :: rest).flatten ++ [0])) ∧
    (null_terminated_buffers first pre s = .ok s0 → s0.seqdbuf = none →
      (∀ f ∈ g :: post, (∀ x ∈ f, x ≠ 0) ∧ f.length ≤ SEQD_MAX_BUFFER_SIZE) →
      1 + (g :: post).flatten.length < UINT_RANGE →
      js.length = post.length + 1 → s0.heap = some j0 :: js.map some ++ h →
      ∃ s1, null_terminated_buffers first (pre ++ g :: post) s = .ok s1 ∧
        s1.seqdbuf = some ((g :: post).flatten ++ [0])) := by
  constructor
  · intro hholds hfr hfit hks hheap
    rcases hholds with ⟨hbuf, rfl⟩ | ⟨hbuf, hsz, hc⟩
    · obtain ⟨k0, ks1, rfl⟩ : ∃ k0 ks1, ks = k0 :: ks1 := by
        cases ks with
        | nil => simp at hks
        | cons k0 ks1 => exact ⟨k0, ks1, rfl⟩
      obtain ⟨s1, h1, h2, _⟩ := stage_from_null first rest k0 ks1 hk s hbuf hfr
        (by simpa using hfit) (by simpa using hks) (by simpa using hheap)
      exact ⟨s1, h1, by simpa using h2⟩
    · obtain ⟨js1, k, rfl⟩ : ∃ js1 k, ks = js1 ++ [k] := by
        rcases List.eq_nil_or_concat ks with hnil | ⟨js1, k, hk1⟩
        · rw [hnil] at hks
          simp at hks
        · exact ⟨js1, k, by rw [hk1, List.concat_eq_append]⟩
      obtain ⟨s1, h1, h2, _⟩ := stage_from_block rest first c js1 (some k :: hk) s hbuf hsz hc
        hfr hfit (by simp at hks; omega) (by simpa using hheap)
      exact ⟨s1, h1, h2⟩
  · intro hpre hfail hfr hfit hjs hheap
    obtain ⟨s1, h1, h2, _⟩ := stage_from_null g post j0 js h s0 hfail hfr hfit hjs hheap
    exact ⟨s1, by rw [null_terminated_buffers_append pre first g post s s0 hpre]; exact h1, h2⟩

/-- The fragments `a`, `b`, `c`, `d`, `e` staged on a buffer that holds `x`,
when the fourth allocation fails: `a`, `b` alone leave `xab`, and after the
call for `d` has failed `e` is still staged. -/
theorem null_terminated_buffers_stages_all_witness :
    (∃ s1, null_terminated_buffers [97] [[98]]
        { State.start [some [], some [], some [], none, some [], some []] [] ⟨0, 0, 0, 0, []⟩ 0
          with seqdbuf := some [120, 0], seqdbuf_size := 2 } = .ok s1 ∧
      s1.seqdbuf = some ([120] ++ ([97] :: [[98]]).flatten ++ [0])) ∧
    (∃ s1, null_terminated_buffers [97] ([[98], [99], [100]] ++ [101] :: [])
        { State.start [some [], some [], some [], none, some [], some []] [] ⟨0, 0, 0, 0, []⟩ 0
          with seqdbuf := some [120, 0], seqdbuf_size := 2 } = .ok s1 ∧
      s1.seqdbuf = some (([101] :: ([] : List (List Nat))).flatten ++ [0])) :=
  have w := null_terminated_buffers_stages_all [97] [101] [120] [[98], [99], [100]] [] [[98]]
    { State.start [some [], some [], some [], none, some [], some []] [] ⟨0, 0, 0, 0, []⟩ 0
      with seqdbuf := some [120, 0], seqdbuf_size := 2 }
    (State.start [some [], some []] [] ⟨0, 0, 0, 0, []⟩ 0)
    [] [[]] [[], [], []] [] [none, some [], some []]
  ⟨w.1 (Or.inr ⟨rfl, rfl, by decide⟩) (by decide) (by decide) rfl rfl,
    w.2 rfl rfl (by decide) (by decide) rfl rfl⟩

/-! ## Leaving raw mode when not in it (C10) -/

/-- C11 fails: on a terminal with `ICANON` and `ECHO` on (`c_lflag = 10`), the
first `set_raw_mode()` saves that configuration and sets `seqdraw`; a second
`set_raw_mode()` is neither a no-op nor an error, and the `unset_raw_mode()`
after it leaves the terminal raw: `c_lflag = 0`, `c_cc[VMIN] = 1`. -/
theorem set_raw_mode_twice_loses_snapshot :
    ((set_raw_mode false true true
        (State.start [] [] ⟨0, 0, 0, 10, List.replicate 32 7⟩ 0)).toOption.map
        (fun s1 => (s1.seqdraw, s1.seqdterm.c_lflag))) = some (true, 10) ∧
    ((set_raw_mode false true true
        (State.start [] [] ⟨0, 0, 0, 10, List.replicate 32 7⟩ 0)).bind
        (fun s1 => (set_raw_mode false true true s1).bind
          (fun s2 => unset_raw_mode false true s2))).toOption.map
        (fun s3 => (s3.seqdraw, s3.tty.c_lflag, s3.tty.c_cc.getD 6 0)) = some (false, 0, 1) := by
  decide

/-- C11, amended: on either build, in every state with `seqdraw` already true,
`set_raw_mode()` (the calls that read and write the configuration succeeding)
returns, with `seqdraw` still true, with the raw configuration derived from
the configuration in force put in force, and with the saved snapshot
overwritten by the configuration that was in force at the call; the
`unset_raw_mode()` after it restores that configuration, which is the one
saved before exactly when the two are equal. -/
theorem set_raw_mode_again_replaces_snapshot (win32 : Bool) (s : State)
    (hraw : s.seqdraw = true) :
    ∃ s1 s2, set_raw_mode win32 true true s = .ok s1 ∧ s1.seqdraw = s.seqdraw ∧
      s1.seqdterm = (if win32 then s.seqdterm else s.tty) ∧
      s1.seqdmode = (if win32 then s.conmode else s.seqdmode) ∧
      s1.tty = (if win32 then s.tty else
        { s.tty with c_lflag := clear_bits s.tty.c_lflag (ICANON ||| ECHO),
                     c_cc := (s.tty.c_cc.set VMIN 1).set VTIME 0 }) ∧
      s1.conmode = (if win32 then
        clear_bits s.conmode (ENABLE_LINE_INPUT ||| ENABLE_ECHO_INPUT) else s.conmode) ∧
      unset_raw_mode win32 true s1 = .ok s2 ∧
      s2.tty = s.tty ∧ s2.conmode = s.conmode ∧ s2.seqdraw = false ∧
      ((if win32 then s2.conmode = s.seqdmode else s2.tty = s.seqdterm) ↔
        (if win32 then s.conmode = s.seqdmode else s.tty = s.seqdterm)) := by
  cases win32 <;> simp [set_raw_mode, unset_raw_mode, fflush, hraw]

/-- A second `set_raw_mode()` on the POSIX build, in a state with `seqdraw`
true whose snapshot has `c_lflag = 10` while the terminal has `c_lflag = 2`:
the snapshot becomes the configuration with `c_lflag = 2`, the terminal gets
`c_lflag = 0`, and `unset_raw_mode()` brings back `c_lflag = 2`, not 10. -/
theorem set_raw_mode_again_replaces_snapshot_witness :
    ∃ s1 s2,
      set_raw_mode false true true
        { State.start [] [] ⟨0, 0, 176, 2, List.replicate 32 7⟩ 0 with
          seqdraw := true, seqdterm := ⟨0, 0, 176, 10, List.replicate 32 7⟩ } = .ok s1 ∧
      s1.seqdraw = true ∧
      s1.seqdterm = ⟨0, 0, 176, 2, List.replicate 32 7⟩ ∧
      s1.tty.c_lflag = 0 ∧ s1.tty.c_cc.getD 6 0 = 1 ∧
      unset_raw_mode false true s1 = .ok s2 ∧
      s2.tty = ⟨0, 0, 176, 2, List.replicate 32 7⟩ ∧ s2.seqdraw = false ∧
      ¬ s2.tty = ⟨0, 0, 176, 10, List.replicate 32 7⟩ := by
  obtain ⟨s1, s2, h1, h2, h3, _, h5, _, h7, h8, _, h10, h11⟩ :=
    set_raw_mode_again_replaces_snapshot false
      { State.start [] [] ⟨0, 0, 176, 2, List.replicate 32 7⟩ 0 with
        seqdraw := true, seqdterm := ⟨0, 0, 176, 10, List.replicate 32 7⟩ } rfl
  refine ⟨s1, s2, h1, h2, h3, ?_, ?_, h7, h8, h10, ?_⟩
  · rw [h5]; decide
  · rw [h5]; decide
  · intro hc
    have := h11.mp hc
    revert this
    decide

/-! ## The ring of rendered sequences (C12) -/

theorem render_calls_length (cs : List (List Nat × List Int)) :
    ∀ s : State, (render_calls cs s).bufs.length = s.bufs.length := by
  induction cs with
  | nil => intro s; rfl
  | cons c cs ih =>
    intro s
    rw [render_calls, ih]
    simp [ansi_argd_seq]

theorem render_calls_index (cs : List (List Nat × List Int)) :
    ∀ s : State, s.index < SEQD_STATIC_BUFFER_COUNT →
      (render_calls cs s).index = (s.index + cs.length) % SEQD_STATIC_BUFFER_COUNT := by
  induction cs with
  | nil =>
    intro s hs
    simp [render_calls, Nat.mod_eq_of_lt hs]
  | cons c cs ih =>
    intro s hs
    have hlt : (ansi_argd_seq c.1 c.2 s).2.index < SEQD_STATIC_BUFFER_COUNT :=
      Nat.mod_lt _ (by decide)
    rw [render_calls, ih _ hlt]
    simp only [ansi_argd_seq, List.length_cons, SEQD_STATIC_BUFFER_COUNT]
    omega

theorem render_calls_frame (cs : List (List Nat × List Int)) :
    ∀ (s : State) (p : Nat), s.index < SEQD_STATIC_BUFFER_COUNT →
      (∀ k, k < cs.length → (s.index + k) % SEQD_STATIC_BUFFER_COUNT ≠ p) →
      (render_calls cs s).bufs.getD p [] = s.bufs.getD p [] := by
  induction cs with
  | nil => intro s p _ _; rfl
  | cons c cs ih =>
    intro s p hs hne
    have hlt : (ansi_argd_seq c.1 c.2 s).2.index < SEQD_STATIC_BUFFER_COUNT :=
      Nat.mod_lt _ (by decide)
    have h0 : s.index ≠ p := by
      have := hne 0 (by simp)
      simpa [Nat.mod_eq_of_lt hs] using this
    rw [render_calls, ih _ p hlt]
    · simp only [ansi_argd_seq, List.getD_eq_getElem?_getD]
      rw [List.getElem?_set_ne h0]
    · intro k hk
      have := hne (k + 1) (by simpa using hk)
      simp only [ansi_argd_seq, SEQD_STATIC_BUFFER_COUNT] at this ⊢
      omega

theorem ansi_argd_seq_slot (fmt : List Nat) (args : List Int) (t : State)
    (h : t.index < t.bufs.length) :
    (ansi_argd_seq fmt args t).2.bufs.getD t.index []
      = vsnprintf (t.bufs.getD t.index []) 32 fmt args := by
  simp only [ansi_argd_seq, List.getD_eq_getElem?_getD]
  rw [List.getElem?_set_self h]
  rfl

theorem vsnprintf_length (buf fmt : List Nat) (args : List Int)
    (h : buf.length = SEQD_STATIC_BUFFER_SIZE) :
    (vsnprintf buf 32 fmt args).length = SEQD_STATIC_BUFFER_SIZE := by
  simp only [vsnprintf, SEQD_STATIC_BUFFER_SIZE] at h ⊢
  simp [h]
  omega

theorem ansi_argd_seq_slot_sizes (fmt : List Nat) (args : List Int) (s : State)
    (h : ∀ b ∈ s.bufs, b.length = SEQD_STATIC_BUFFER_SIZE) :
    ∀ b ∈ (ansi_argd_seq fmt args s).2.bufs, b.length = SEQD_STATIC_BUFFER_SIZE := by
  intro b hb
  simp only [ansi_argd_seq] at hb
  by_cases hi : s.index < s.bufs.length
  · rcases List.mem_or_eq_of_mem_set hb with hb | hb
    · exact h b hb
    · rw [hb]
      apply vsnprintf_length
      rw [List.getD_eq_getElem _ _ hi]
      exact h _ (List.getElem_mem hi)
  · rw [List.set_eq_of_length_le (Nat.le_of_not_lt hi)] at hb
    exact h b hb

theorem render_calls_slot_sizes (cs : List (List Nat × List Int)) :
    ∀ s : State, (∀ b ∈ s.bufs, b.length = SEQD_STATIC_BUFFER_SIZE) →
      ∀ b ∈ (render_calls cs s).bufs, b.length = SEQD_STATIC_BUFFER_SIZE := by
  induction cs with
  | nil => intro s h; exact h
  | cons c cs ih =>
    intro s h
    rw [render_calls]
    exact ih _ (ansi_argd_seq_slot_sizes c.1 c.2 s h)

/-- C12: with N = `SEQD_STATIC_BUFFER_COUNT`, in every state whose slot index
is below N and whose ring has N slots (as in the start state), a render call
returns the slot the index points to, and for every sequence `cs` of render
calls after it: the returned slot is unchanged when `cs` has at most N-1 calls;
a call that comes after fewer than N-1 calls returns another slot; the call
that comes after exactly N-1 calls, the N-th, returns the same slot and writes
its own text over it; after `cs` the index is below N, the ring has N slots,
and the slots keep their `SEQD_STATIC_BUFFER_SIZE` bytes if they had them. -/
theorem ansi_argd_seq_ring (fmt : List Nat) (args : List Int)
    (cs : List (List Nat × List Int)) (s : State)
    (hidx : s.index < SEQD_STATIC_BUFFER_COUNT)
    (hlen : s.bufs.length = SEQD_STATIC_BUFFER_COUNT) :
    (ansi_argd_seq fmt args s).1 = s.index ∧
    (cs.length < SEQD_STATIC_BUFFER_COUNT →
      (render_calls cs (ansi_argd_seq fmt args s).2).bufs.getD (ansi_argd_seq fmt args s).1 []
        = (ansi_argd_seq fmt args s).2.bufs.getD (ansi_argd_seq fmt args s).1 []) ∧
    (cs.length + 1 < SEQD_STATIC_BUFFER_COUNT → ∀ fmt2 args2,
      (ansi_argd_seq fmt2 args2 (render_calls cs (ansi_argd_seq fmt args s).2)).1
        ≠ (ansi_argd_seq fmt args s).1) ∧
    (cs.length + 1 = SEQD_STATIC_BUFFER_COUNT → ∀ fmt2 args2,
      (ansi_argd_seq fmt2 args2 (render_calls cs (ansi_argd_seq fmt args s).2)).1
        = (ansi_argd_seq fmt args s).1 ∧
      (ansi_argd_seq fmt2 args2 (render_calls cs (ansi_argd_seq fmt args s).2)).2.bufs.getD
          (ansi_argd_seq fmt args s).1 []
        = vsnprintf ((ansi_argd_seq fmt args s).2.bufs.getD (ansi_argd_seq fmt args s).1 [])
            32 fmt2 args2) ∧
    (render_calls cs (ansi_argd_seq fmt args s).2).index < SEQD_STATIC_BUFFER_COUNT ∧
    (render_calls cs (ansi_argd_seq fmt args s).2).bufs.length = SEQD_STATIC_BUFFER_COUNT ∧
    ((∀ b ∈ s.bufs, b.length = SEQD_STATIC_BUFFER_SIZE) →
      ∀ b ∈ (render_calls cs (ansi_argd_seq fmt args s).2).bufs,
        b.length = SEQD_STATIC_BUFFER_SIZE) := by
  have hlt : (ansi_argd_seq fmt args s).2.index < SEQD_STATIC_BUFFER_COUNT :=
    Nat.mod_lt _ (by decide)
  have hi1 : (ansi_argd_seq fmt args s).2.index = (s.index + 1) % SEQD_STATIC_BUFFER_COUNT := rfl
  have hp : (ansi_argd_seq fmt args s).1 = s.index := rfl
  have hix := render_calls_index cs _ hlt
  have hln : (render_calls cs (ansi_argd_seq fmt args s).2).bufs.length
      = SEQD_STATIC_BUFFER_COUNT := by
    rw [render_calls_length]
    simpa [ansi_argd_seq] using hlen
  have hframe : cs.length < SEQD_STATIC_BUFFER_COUNT →
      (render_calls cs (ansi_argd_seq fmt args s).2).bufs.getD s.index []
        = (ansi_argd_seq fmt args s).2.bufs.getD s.index [] := by
    intro hcs
    apply render_calls_frame cs _ _ hlt
    intro k hk
    rw [hi1]
    simp only [SEQD_STATIC_BUFFER_COUNT] at hidx hcs ⊢
    omega
  refine ⟨hp, ?_, ?_, ?_, ?_, hln,
    fun h => render_calls_slot_sizes cs _ (ansi_argd_seq_slot_sizes fmt args s h)⟩
  · intro hcs
    rw [hp]
    exact hframe hcs
  · intro hcs fmt2 args2
    show (render_calls cs (ansi_argd_seq fmt args s).2).index ≠ _
    rw [hix, hi1, hp]
    simp only [SEQD_STATIC_BUFFER_COUNT] at hidx hcs ⊢
    omega
  · intro hcs fmt2 args2
    have hsame : (render_calls cs (ansi_argd_seq fmt args s).2).index = s.index := by
      rw [hix, hi1]
      simp only [SEQD_STATIC_BUFFER_COUNT] at hidx hcs ⊢
      omega
    refine ⟨by rw [hp]; exact hsame, ?_⟩
    rw [hp]
    have hin : (render_calls cs (ansi_argd_seq fmt args s).2).index
        < (render_calls cs (ansi_argd_seq fmt args s).2).bufs.length := by
      rw [hln, hsame]; exact hidx
    have hslot := ansi_argd_seq_slot fmt2 args2 _ hin
    rw [hsame] at hslot
    rw [hslot, hframe (by omega)]
  · rw [hix]
    exact Nat.mod_lt _ (by decide)

/-- The call `SEQD_SETCUR(24, 80)` in the start state followed by seven calls
`SEQD_FG_256(5)`: the slot 0 it returned still holds its text, and the eighth
call returns slot 0 again. -/
theorem ansi_argd_seq_ring_witness :
    (ansi_argd_seq [27, 91, 37, 100, 59, 37, 100, 72] [24, 80]
      (State.start [] [] ⟨0, 0, 0, 0, []⟩ 0)).1 = 0 ∧
    cstr ((render_calls (List.replicate 7 ([27, 91, 51, 56, 59, 53, 59, 37, 100, 109], [5]))
      (ansi_argd_seq [27, 91, 37, 100, 59, 37, 100, 72] [24, 80]
        (State.start [] [] ⟨0, 0, 0, 0, []⟩ 0)).2).bufs.getD 0 [])
      = [27, 91, 50, 52, 59, 56, 48, 72] ∧
    (ansi_argd_seq [27, 91, 51, 56, 59, 53, 59, 37, 100, 109] [5]
      (render_calls (List.replicate 7 ([27, 91, 51, 56, 59, 53, 59, 37, 100, 109], [5]))
        (ansi_argd_seq [27, 91, 37, 100, 59, 37, 100, 72] [24, 80]
          (State.start [] [] ⟨0, 0, 0, 0, []⟩ 0)).2)).1 = 0 :=
  have w := ansi_argd_seq_ring [27, 91, 37, 100, 59, 37, 100, 72] [24, 80]
    (List.replicate 7 ([27, 91, 51, 56, 59, 53, 59, 37, 100, 109], [5]))
    (State.start [] [] ⟨0, 0, 0, 0, []⟩ 0) (by decide) (by decide)
  ⟨w.1, (congrArg cstr (w.2.1 (by decide))).trans (by decide),
    (w.2.2.2.1 (by decide) [27, 91, 51, 56, 59, 53, 59, 37, 100, 109] [5]).1⟩

end Seqd
